import Mathlib

/-!
Verification development for mc4sv (src/mc4sv.c), a small IPv4 multicast
listener. The definitions below are a shallow embedding of the parts of
the program that the checked properties talk about: the statistics
accumulator of the receive loop, the per-packet log line, option and
positional-argument processing, the multicast-group parse, interface
enumeration, the bind-address candidate loop, and the timer-driven
cancellation of the session. Machine integers are modelled as Nat or Int
with explicit reduction modulo 2 ^ 64 where size_t overflow matters.
Library calls that the program relies on (atoi, inet_aton, inet_ntoa,
recvfrom truncation, setitimer) are modelled from their POSIX and C
standard semantics, since they are not part of the repository.
-/

/-- Modulus of size_t arithmetic on the LP64 target: 2 ^ 64. -/
def szW : Nat := 2 ^ 64

/-- Statistics accumulator of the receive loop (mc4sv.c lines 60 and
162 to 163): packets and sumsize are size_t counters, held modulo 2 ^ 64. -/
structure LoopState where
  packets : Nat
  sumsize : Nat
deriving DecidableEq, Repr

/-- Result of one recvfrom call that returned to the loop body
(mc4sv.c line 166): either a datagram whose received length is len,
or a failure return of -1. A cancellation interruption never returns
to the loop body, because the signal handler jumps out (line 186). -/
inductive RecvOutcome where
  | dgram (len : Nat)
  | fail
deriving DecidableEq, Repr

/-- Value of the expression (size_t)received as used at line 169:
the received length for a datagram, and 2 ^ 64 - 1 for the failure
return -1 converted to size_t. -/
def sizeCast : RecvOutcome → Nat
  | RecvOutcome.dgram n => n
  | RecvOutcome.fail => szW - 1

/-- One iteration of the loop body after recvfrom returns (mc4sv.c
lines 168 to 169): packets++ and sumsize += (size_t)received, both in
size_t arithmetic. The body never inspects received for failure and
contains no exit. -/
def loopIter (st : LoopState) (o : RecvOutcome) : LoopState :=
  LoopState.mk ((st.packets + 1) % szW) ((st.sumsize + sizeCast o) % szW)

/-- Loop state after processing a list of recvfrom returns in arrival
order, starting from packets = 0 and sumsize = 0 (lines 162 to 174). -/
def runTrace (os : List RecvOutcome) : LoopState :=
  os.foldl loopIter (LoopState.mk 0 0)

/-- Loop state after receiving the given datagram payload lengths in
arrival order. -/
def runLoop (lens : List Nat) : LoopState :=
  runTrace (lens.map RecvOutcome.dgram)

/-- Size of the fixed receive buffer (mc4sv.c line 46). -/
def BUFFERSIZE : Nat := 2048

/-- Length returned by recvfrom for an incoming datagram of the given
payload length, modelled from the POSIX semantics of recvfrom on a
datagram socket with flags 0 and a buffer of sizeof(buffer) = 2048
bytes (line 166): the excess of an oversized datagram is discarded and
the call returns the number of bytes actually stored. -/
def recvfromLen (datagramLen : Nat) : Nat :=
  min datagramLen BUFFERSIZE

/-- Final summary line printed at the quit label (mc4sv.c line 176). -/
def summaryLine (st : LoopState) : String :=
  "\n" ++ toString st.packets ++ " packets (" ++ toString st.sumsize
    ++ " byte) received.\n"

/-- Value of the 16-bit sin_port field read as an integer on the
little-endian target: the field holds the sender port in network byte
order, so reading it as a number swaps the two bytes of the host-order
port value. -/
def htons16 (p : Nat) : Nat :=
  (p % 256) * 256 + (p / 256) % 256

/-- Dotted-decimal rendering of an IPv4 address value, modelled from
inet_ntoa: the four bytes of the address, most significant first. -/
def inet_ntoa (a : Nat) : String :=
  toString (a / 16777216 % 256) ++ "." ++ toString (a / 65536 % 256)
    ++ "." ++ toString (a / 256 % 256) ++ "." ++ toString (a % 256)

/-- Port number that the per-packet printf actually displays for a
sender whose port (host byte order) is p: the code passes sin.sin_port
to printf %u without conversion (mc4sv.c line 172), so the raw
network-byte-order field value is printed. -/
def displayedPort (p : Nat) : Nat :=
  htons16 p

/-- Per-packet log line emitted by the code (mc4sv.c lines 171 to 173)
for sender address a (IPv4 value), sender port p (host byte order) and
received length len. -/
def codePacketLine (a p len : Nat) : String :=
  "received from " ++ inet_ntoa a ++ ":" ++ toString (displayedPort p)
    ++ " (" ++ toString len ++ ")\n"

/-- Per-packet log line as the specification words it: the same line,
but with the sender port converted to host byte order for display.
This definition follows the wording of the spec and exists only to be
compared with codePacketLine. -/
def specPacketLine (a p len : Nat) : String :=
  "received from " ++ inet_ntoa a ++ ":" ++ toString p
    ++ " (" ++ toString len ++ ")\n"

/-- Whitespace test of the C locale, as used by atoi. -/
def isSpaceC (c : Char) : Bool :=
  c = ' ' ∨ c = '\t' ∨ c = '\n' ∨ c = '\x0b' ∨ c = '\x0c' ∨ c = '\r'

/-- Decimal digit accumulation: consumes leading decimal digits of the
list into the accumulator and stops at the first non-digit. -/
def digitsVal : List Char → Nat → Nat
  | [], acc => acc
  | c :: cs, acc =>
      if '0' ≤ c ∧ c ≤ '9' then digitsVal cs (acc * 10 + (c.toNat - 48))
      else acc

/-- Model of atoi from the C standard semantics: skip C-locale
whitespace, read an optional sign, then a run of decimal digits,
ignoring everything after the first non-digit; a string with no
leading digits yields 0. Overflow of the 32-bit int is not modelled;
all inputs considered here are small. -/
def atoiL : List Char → Int
  | cs =>
      match cs.dropWhile isSpaceC with
      | '-' :: rest => - (digitsVal rest 0 : Int)
      | '+' :: rest => (digitsVal rest 0 : Int)
      | rest => (digitsVal rest 0 : Int)

/-- Model of atoi on strings (byte strings are modelled as their
character lists; all arguments of interest are ASCII). -/
def atoi (s : String) : Int :=
  atoiL s.data

/-- Value of a hexadecimal digit character, if any. -/
def hexVal (c : Char) : Option Nat :=
  if '0' ≤ c ∧ c ≤ '9' then some (c.toNat - 48)
  else if 'a' ≤ c ∧ c ≤ 'f' then some (c.toNat - 87)
  else if 'A' ≤ c ∧ c ≤ 'F' then some (c.toNat - 55)
  else none

/-- Digit accumulation in the given base (8, 10 or 16): consumes the
leading digits that are valid in the base and returns the value and
the unconsumed remainder of the list. -/
def digitsIn (base : Nat) : List Char → Nat → Nat × List Char
  | [], acc => (acc, [])
  | c :: cs, acc =>
      match hexVal c with
      | some d =>
          if d < base then digitsIn base cs (acc * base + d)
          else (acc, c :: cs)
      | none => (acc, c :: cs)

/-- One numeric component of an inet_aton input, modelled from the
strtoul-style number grammar of inet_aton: a leading 0x or 0X selects
hexadecimal, a leading 0 selects octal, otherwise decimal; a bare 0x
with no hexadecimal digit after it parses as the number 0 leaving the
x unconsumed. Returns none when the list does not start with a number. -/
def parseNum : List Char → Option (Nat × List Char)
  | [] => none
  | c0 :: rest0 =>
      if c0 = '0' then
        match rest0 with
        | [] => some (0, [])
        | cx :: rest1 =>
            if cx = 'x' ∨ cx = 'X' then
              match rest1 with
              | [] => some (0, rest0)
              | d :: _ =>
                  match hexVal d with
                  | some _ => some (digitsIn 16 rest1 0)
                  | none => some (0, rest0)
            else some (digitsIn 8 rest0 0)
      else
        match hexVal c0 with
        | some d => if d < 10 then some (digitsIn 10 (c0 :: rest0) 0) else none
        | none => none

/-- Dot-separated components of an inet_aton input: at most four
numbers separated by single dots, consuming the entire string. The
fuel argument bounds the number of components still allowed. -/
def atonPartsAux : Nat → List Char → List Nat → Option (List Nat)
  | 0, _, _ => none
  | fuel + 1, cs, acc =>
      match parseNum cs with
      | none => none
      | some vr =>
          match vr.2 with
          | [] => some (acc ++ [vr.1])
          | '.' :: rest2 => atonPartsAux fuel rest2 (acc ++ [vr.1])
          | _ => none

/-- Components of an inet_aton input, up to four. -/
def atonParts (cs : List Char) : Option (List Nat) :=
  atonPartsAux 4 cs []

/-- Assembly of inet_aton components into a 32-bit address value,
modelled from the inet_aton rules: one component is the whole address,
two are byte.24-bit, three are byte.byte.16-bit, four are four bytes;
out-of-range components are rejected. -/
def atonAssemble : List Nat → Option Nat
  | [a] => if a < 4294967296 then some a else none
  | [a, b] => if a < 256 ∧ b < 16777216 then some (a * 16777216 + b) else none
  | [a, b, c] =>
      if a < 256 ∧ b < 256 ∧ c < 65536 then some (a * 16777216 + b * 65536 + c)
      else none
  | [a, b, c, d] =>
      if a < 256 ∧ b < 256 ∧ c < 256 ∧ d < 256 then
        some (a * 16777216 + b * 65536 + c * 256 + d)
      else none
  | _ => none

/-- Model of inet_aton: parses a numbers-and-dots IPv4 address string,
returning its 32-bit value, or none when the string does not parse. -/
def inet_aton (s : String) : Option Nat :=
  (atonParts s.data).bind atonAssemble

/-- Multicast (class D) range of IPv4 addresses: 224.0.0.0 up to but
not including 240.0.0.0. -/
def isMulticast (a : Nat) : Prop :=
  3758096384 ≤ a ∧ a < 4026531840

instance (a : Nat) : Decidable (isMulticast a) := by
  unfold isMulticast
  infer_instance

/-- Kind of fatal exit taken during setup: the usage message of
usage() (mc4sv.c lines 209 to 216), or an errx / err diagnostic with
the given message. Both paths exit with status 1. -/
inductive ExitKind where
  | usage
  | errx (msg : String)
deriving DecidableEq, Repr

/-- Exit status of each setup-time fatal exit: usage() calls exit(1)
(line 215) and every errx / err call in the file passes status 1. -/
def exitCodeOf : ExitKind → Nat
  | ExitKind.usage => 1
  | ExitKind.errx _ => 1

/-- One option delivered by getopt with option string i:qt:
(mc4sv.c line 72): -i with its argument, -q, -t with its argument, or
an unrecognized option, which getopt reports as the character ?. -/
inductive OptEvent where
  | i (arg : String)
  | q
  | t (arg : String)
  | unknownOpt
deriving DecidableEq, Repr

/-- IFNAMSIZ of net/if.h on the target, the size of the ifname buffer
(mc4sv.c line 63). -/
def IFNAMSIZ : Nat := 16

/-- Mutable option-processing state of main (mc4sv.c lines 57 to 71):
the quiet flag, the timeout (a time_t assigned from atoi), and the
interface name buffer, initially empty. -/
structure OptState where
  quiet : Bool
  timeout : Int
  ifname : String
deriving DecidableEq, Repr

/-- Initial option state (mc4sv.c lines 63, 70 and 71). -/
def optState0 : OptState :=
  OptState.mk false 0 ""

/-- The switch of the getopt loop (mc4sv.c lines 72 to 91). For -i, a
name of IFNAMSIZ or more bytes is rejected with errx(1) and a shorter
one is copied into ifname; -q sets quiet; for -t, atoi of the argument
becomes the timeout, and a value above 3600 is rejected with errx(1);
an unrecognized option calls usage(). String byte length is modelled
as character count, all arguments of interest being ASCII. -/
def procOpt (st : OptState) : OptEvent → Except ExitKind OptState
  | OptEvent.i s =>
      if IFNAMSIZ ≤ s.length then
        Except.error (ExitKind.errx (s ++ ": interface name too long"))
      else Except.ok (OptState.mk st.quiet st.timeout s)
  | OptEvent.q => Except.ok (OptState.mk true st.timeout st.ifname)
  | OptEvent.t s =>
      if 3600 < atoi s then
        Except.error (ExitKind.errx (s ++ ": invalid timeout (>3600)"))
      else Except.ok (OptState.mk st.quiet (atoi s) st.ifname)
  | OptEvent.unknownOpt => Except.error ExitKind.usage

/-- The whole getopt loop: options are processed left to right and the
first fatal exit ends the process. -/
def procOpts : OptState → List OptEvent → Except ExitKind OptState
  | st, [] => Except.ok st
  | st, e :: es =>
      match procOpt st e with
      | Except.error k => Except.error k
      | Except.ok st2 => procOpts st2 es

/-- The positional-argument switch (mc4sv.c lines 95 to 107): zero,
one or two operands select the multicast group (default 224.0.0.1)
and the service (default discard); more than two operands call
usage(). -/
def procPositionals : List String → Except ExitKind (String × String)
  | [] => Except.ok ("224.0.0.1", "discard")
  | [m] => Except.ok (m, "discard")
  | [m, s] => Except.ok (m, s)
  | _ => Except.error ExitKind.usage

/-- The multicast-group check (mc4sv.c lines 109 to 110): the group
string is given to inet_aton and a parse failure is fatal; the parsed
value is used as imr_multiaddr with no further validation. -/
def checkMcast (s : String) : Except ExitKind Nat :=
  match inet_aton s with
  | none => Except.error (ExitKind.errx (s ++ ": invalid multicast group"))
  | some a => Except.ok a

/-- One entry of the getifaddrs list (mc4sv.c lines 192 to 202): an
interface name and, when ifa_addr is not null, the address family
together with the IPv4 address value of the entry. -/
structure Ifaddr where
  name : String
  addr : Option (Nat × Nat)
deriving DecidableEq, Repr

/-- AF_INET of the target. -/
def AF_INET : Nat := 2

/-- The get_inaddr scan (mc4sv.c lines 196 to 206): entries whose
ifa_addr is null or whose family is not AF_INET are skipped; the first
remaining entry whose name compares equal to ifname under strcmp is
taken; none means the errx(1) exit at line 204. -/
def get_inaddr (ifname : String) : List Ifaddr → Option Nat
  | [] => none
  | ifa :: rest =>
      match ifa.addr with
      | none => get_inaddr ifname rest
      | some fa =>
          if fa.1 = AF_INET ∧ ifname = ifa.name then some fa.2
          else get_inaddr ifname rest

/-- Outcome of one candidate of the getaddrinfo result list in the
socket loop (mc4sv.c lines 123 to 141): the attempt succeeds, or the
socket call fails, or bind fails, or the IP_ADD_MEMBERSHIP setsockopt
fails. -/
inductive AttemptResult where
  | success
  | socketFail
  | bindFail
  | joinFail
deriving DecidableEq, Repr

/-- The cause string stored for a failing attempt (mc4sv.c lines 126,
130 and 136). A successful attempt stores no cause; the empty string
stands for that unused case. -/
def causeStr : AttemptResult → String
  | AttemptResult.socketFail => "socket"
  | AttemptResult.bindFail => "bind"
  | AttemptResult.joinFail => "IP_ADD_MEMBERSHIP"
  | AttemptResult.success => ""

/-- Whether the attempt created a socket: every path except a failing
socket() call holds an open descriptor (mc4sv.c line 124). -/
def attemptOpens : AttemptResult → Bool
  | AttemptResult.socketFail => false
  | _ => true

/-- Whether the failure path of the attempt closed its socket: the
bind and IP_ADD_MEMBERSHIP failure paths call close(fd) (mc4sv.c
lines 131 and 137); the socket failure path has nothing to close and
the success path keeps its socket open. -/
def attemptCloses : AttemptResult → Bool
  | AttemptResult.bindFail => true
  | AttemptResult.joinFail => true
  | _ => false

/-- Result of the candidate loop: success with the joined socket still
open, or the err(1, cause) exit at line 143 with the last stored cause
(none when the candidate list was empty and cause was never stored). -/
inductive JoinOutcome where
  | ok
  | errExit (cause : Option String)
deriving DecidableEq, Repr

/-- The candidate loop of mc4sv.c lines 123 to 143, together with a
count of the sockets it opened and of the sockets it closed. Each
failing candidate stores its cause string and, where it opened a
socket, closes it; the first succeeding candidate breaks out of the
loop keeping its socket open; exhaustion of the list reaches the
err(1, cause) exit. -/
def tryCands : List AttemptResult → Option String → JoinOutcome × Nat × Nat
  | [], cause => (JoinOutcome.errExit cause, 0, 0)
  | r :: rest, _ =>
      match r with
      | AttemptResult.success => (JoinOutcome.ok, 1, 0)
      | _ =>
          let t := tryCands rest (some (causeStr r))
          (t.1, (if attemptOpens r then 1 else 0) + t.2.1,
            (if attemptCloses r then 1 else 0) + t.2.2)

/-- Environment of one run: the getifaddrs table of the host and, for
each service string, the getaddrinfo candidate outcomes (none models a
getaddrinfo failure, reported via gai_strerror at line 122). -/
structure Oracle where
  ifaddrs : List Ifaddr
  gai : String → Option (List AttemptResult)

/-- Data established by a successful setup: the multicast group value,
the chosen interface address, and the counts of sockets opened and
closed by the candidate loop. -/
structure SetupOk where
  maddr : Nat
  iaddr : Nat
  opened : Nat
  closed : Nat
deriving DecidableEq, Repr

/-- INADDR_ANY, used for imr_interface when no -i was given (mc4sv.c
line 114); htonl(0) = 0. -/
def INADDR_ANY : Nat := 0

/-- Interface selection (mc4sv.c lines 111 to 114): with a nonempty
-i name the getifaddrs scan must find the interface, otherwise the
wildcard interface is used. -/
def resolveIface (st : OptState) (tbl : List Ifaddr) : Except ExitKind Nat :=
  if st.ifname = "" then Except.ok INADDR_ANY
  else
    match get_inaddr st.ifname tbl with
    | some a => Except.ok a
    | none =>
        Except.error
          (ExitKind.errx (st.ifname ++ ": interface does not exist or is invalid"))

/-- Message of the err(1, cause) exit at line 143. -/
def causeText : Option String → String
  | some s => s
  | none => ""

/-- The setup phase of main in source order (mc4sv.c lines 72 to 144):
option processing, positional arguments, the inet_aton check of the
group, interface resolution, getaddrinfo, then the candidate loop.
Each fatal exit ends the run before the later stages consult the
environment. -/
def runSetup (evs : List OptEvent) (pos : List String) (orc : Oracle) :
    Except ExitKind SetupOk :=
  match procOpts optState0 evs with
  | Except.error k => Except.error k
  | Except.ok st =>
      match procPositionals pos with
      | Except.error k => Except.error k
      | Except.ok ms =>
          match checkMcast ms.1 with
          | Except.error k => Except.error k
          | Except.ok maddr =>
              match resolveIface st orc.ifaddrs with
              | Except.error k => Except.error k
              | Except.ok iaddr =>
                  match orc.gai ms.2 with
                  | none => Except.error (ExitKind.errx "getaddrinfo")
                  | some cands =>
                      match tryCands cands none with
                      | (JoinOutcome.errExit cause, _, _) =>
                          Except.error (ExitKind.errx (causeText cause))
                      | (JoinOutcome.ok, opened, closed) =>
                          Except.ok (SetupOk.mk maddr iaddr opened closed)

/-- An environment with no interfaces and no resolvable services, used
to instantiate theorems whose conclusion cannot depend on the
environment. -/
def oracle0 : Oracle :=
  Oracle.mk [] (fun _ => none)

/-- An environment whose single bind candidate fails at the
IP_ADD_MEMBERSHIP step. -/
def oracleJoinFail : Oracle :=
  Oracle.mk [] (fun _ => some [AttemptResult.joinFail])

/-- Expiry time of the one-shot real timer armed with it_value equal
to the configured timeout (mc4sv.c lines 157 to 159), modelled from
the setitimer semantics: a zero value disarms the timer and it never
fires, a positive value T makes SIGALRM arrive T seconds later. -/
def timerFire (T : Nat) : Option Nat :=
  if T = 0 then none else some T

/-- The earlier of two optional cancellation instants: whichever of
the timer expiry and the external interrupt fires first ends the
session, and each of them leads to the same siglongjmp (mc4sv.c lines
146 to 155 and 183 to 187). -/
def firstCancel : Option Nat → Option Nat → Option Nat
  | none, b => b
  | some a, none => some a
  | some a, some b => some (min a b)

/-- Instant at which the session leaves the receive loop for the quit
label, given the configured timeout and an optional external
interrupt instant; none means the loop runs forever. -/
def sessionEndTime (T : Nat) (intr : Option Nat) : Option Nat :=
  firstCancel (timerFire T) intr

/-- A whole session: given the configured timeout, an optional
external interrupt instant, and the timed arrivals (instant, length)
of datagrams, the session either runs forever (none) or ends at the
cancellation instant, with exit status 0 (mc4sv.c line 180), having
counted the datagrams that arrived before that instant and printed
the summary line of the quit label. -/
def sessionRun (T : Nat) (intr : Option Nat) (arrivals : List (Nat × Nat)) :
    Option (Nat × Nat × String) :=
  match sessionEndTime T intr with
  | none => none
  | some e =>
      some (e, 0,
        summaryLine (runLoop ((arrivals.filter (fun ad => ad.1 < e)).map
          (fun ad => ad.2))))

/-! Theorems. Helper lemmas come first; each claim of the design
specification then gets one theorem, together with a witness or a
counterexample where called for. -/

/-- Helper: folding the loop body over datagram receptions from an
arbitrary start state adds the number of datagrams to packets and
their total length to sumsize, as long as neither size_t counter
overflows. -/
theorem foldl_dgram_eq (lens : List Nat) (st : LoopState)
    (hN : st.packets + lens.length < szW) (hS : st.sumsize + lens.sum < szW) :
    (lens.map RecvOutcome.dgram).foldl loopIter st =
      LoopState.mk (st.packets + lens.length) (st.sumsize + lens.sum) := by
  induction lens generalizing st with
  | nil =>
      cases st with
      | mk p s => simp
  | cons l ls ih =>
      cases st with
      | mk p s =>
          have hN2 : p + ls.length + 1 < szW := by
            have h := hN
            simp only [List.length_cons] at h
            show p + ls.length + 1 < szW
            omega
          have hS2 : s + (l + ls.sum) < szW := by
            have h := hS
            simp only [List.sum_cons] at h
            exact h
          have h1 : p + 1 < szW := by omega
          have h2 : s + l < szW := by omega
          have hstep : loopIter (LoopState.mk p s) (RecvOutcome.dgram l) =
              LoopState.mk (p + 1) (s + l) := by
            simp [loopIter, sizeCast, Nat.mod_eq_of_lt h1, Nat.mod_eq_of_lt h2]
          simp only [List.map_cons, List.foldl_cons, hstep]
          have h3 := ih (LoopState.mk (p + 1) (s + l))
            (by show p + 1 + ls.length < szW; omega)
            (by show s + l + ls.sum < szW; omega)
          rw [h3]
          simp only [LoopState.mk.injEq, List.length_cons, List.sum_cons]
          omega

/-- Claim C1: each received datagram increases packets by exactly 1
and sumsize by exactly its payload length, in arrival order; after N
datagrams the counters read N and the sum of the N lengths, and (below
the size_t overflow bound, which a real run never reaches) a loop step
never decreases either counter. -/
theorem claim_C1 (lens : List Nat)
    (hN : lens.length < szW) (hS : lens.sum < szW) :
    (runLoop lens).packets = lens.length ∧
    (runLoop lens).sumsize = lens.sum ∧
    (∀ st l, st.packets + 1 < szW → st.sumsize + l < szW →
      (loopIter st (RecvOutcome.dgram l)).packets = st.packets + 1 ∧
      (loopIter st (RecvOutcome.dgram l)).sumsize = st.sumsize + l) := by
  have h := foldl_dgram_eq lens (LoopState.mk 0 0)
    (by simpa using hN) (by simpa using hS)
  refine ⟨?_, ?_, ?_⟩
  · simp [runLoop, runTrace, h]
  · simp [runLoop, runTrace, h]
  · intro st l h1 h2
    cases st with
    | mk p s =>
        simp [loopIter, sizeCast] at h1 h2 ⊢
        exact ⟨Nat.mod_eq_of_lt h1, Nat.mod_eq_of_lt h2⟩

/-- Witness for claim C1 at the three datagram lengths of the
scenario in the specification. -/
theorem claim_C1_witness :
    (runLoop [10, 0, 1400]).packets = 3 ∧
    (runLoop [10, 0, 1400]).sumsize = 1410 := by
  have h := claim_C1 [10, 0, 1400] (by decide) (by decide)
  exact ⟨by simpa using h.1, by simpa using h.2.1⟩

/-- Claim C2 (amended): the loop body never inspects the recvfrom
return value, so a failing receive (return -1) is not fatal: it is
counted like a datagram, incrementing packets and adding
(size_t)(-1) = 2 ^ 64 - 1 to sumsize in size_t arithmetic, and the
loop goes on processing the subsequent receive returns. -/
theorem claim_C2 (pre post : List RecvOutcome) (st : LoopState) :
    List.foldl loopIter st (pre ++ RecvOutcome.fail :: post) =
      List.foldl loopIter
        (loopIter (List.foldl loopIter st pre) RecvOutcome.fail) post ∧
    (loopIter (List.foldl loopIter st pre) RecvOutcome.fail).packets =
      ((List.foldl loopIter st pre).packets + 1) % szW ∧
    (loopIter (List.foldl loopIter st pre) RecvOutcome.fail).sumsize =
      ((List.foldl loopIter st pre).sumsize + (szW - 1)) % szW := by
  refine ⟨?_, rfl, rfl⟩
  rw [List.foldl_append, List.foldl_cons]

/-- Counterexample to claim C2 as stated: a failing receive does not
terminate the process; it is counted as a packet (the counter reads 1,
not 0, and the byte counter absorbs 2 ^ 64 - 1), and the loop
continues, counting a following 5-byte datagram as the second packet
with the byte counter wrapping to 4. -/
theorem claim_C2_counterexample :
    runTrace [RecvOutcome.fail] = LoopState.mk 1 (szW - 1) ∧
    runTrace [RecvOutcome.fail, RecvOutcome.dgram 5] = LoopState.mk 2 4 := by
  constructor <;> decide

/-- Helper: a fatal exit during option processing ends the run with
that exit before any later stage consults the environment: the setup
outcome is the same error for every positional list and every oracle. -/
theorem runSetup_opts_error (evs : List OptEvent) (pos : List String)
    (orc : Oracle) (k : ExitKind)
    (h : procOpts optState0 evs = Except.error k) :
    runSetup evs pos orc = Except.error k := by
  simp [runSetup, h]

/-- Helper: a usage exit from the positional-argument switch likewise
ends the run before resolution, for every oracle. -/
theorem runSetup_pos_error (evs : List OptEvent) (pos : List String)
    (orc : Oracle) (st : OptState)
    (h1 : procOpts optState0 evs = Except.ok st)
    (h2 : procPositionals pos = Except.error ExitKind.usage) :
    runSetup evs pos orc = Except.error ExitKind.usage := by
  simp [runSetup, h1, h2]

/-- Claim C3 (amended): the -t handler stores atoi(optarg) as the
timeout and rejects, with the errx diagnostic and before any
resolution work, exactly the arguments whose atoi value exceeds 3600;
3600 itself is accepted. Negative values (atoi below 0) and
non-numeric strings (atoi yields 0) therefore pass the check instead
of being rejected at configuration time. -/
theorem claim_C3 :
    (∀ st s, (∃ st2, procOpt st (OptEvent.t s) = Except.ok st2) ↔ atoi s ≤ 3600) ∧
    (∀ st s, 3600 < atoi s →
      procOpt st (OptEvent.t s) =
        Except.error (ExitKind.errx (s ++ ": invalid timeout (>3600)"))) ∧
    (∀ s evs pos orc, 3600 < atoi s →
      runSetup (OptEvent.t s :: evs) pos orc =
        Except.error (ExitKind.errx (s ++ ": invalid timeout (>3600)"))) ∧
    procOpt optState0 (OptEvent.t "3600") = Except.ok (OptState.mk false 3600 "") ∧
    procOpt optState0 (OptEvent.t "-5") = Except.ok (OptState.mk false (-5) "") ∧
    procOpt optState0 (OptEvent.t "abc") = Except.ok (OptState.mk false 0 "") := by
  refine ⟨?_, ?_, ?_, rfl, rfl, rfl⟩
  · intro st s
    by_cases h : 3600 < atoi s
    · simp [procOpt, h]
    · simp [procOpt, h]
      omega
  · intro st s h
    simp [procOpt, h]
  · intro s evs pos orc h
    have h2 : procOpt optState0 (OptEvent.t s) =
        Except.error (ExitKind.errx (s ++ ": invalid timeout (>3600)")) := by
      simp [procOpt, h]
    exact runSetup_opts_error _ _ _ _ (by simp [procOpts, h2])

/-- Witness for claim C3: the argument 3601 is rejected during option
processing with the invalid-timeout diagnostic, uniformly in the
environment. -/
theorem claim_C3_witness :
    runSetup [OptEvent.t "3601"] [] oracle0 =
      Except.error (ExitKind.errx ("3601" ++ ": invalid timeout (>3600)")) := by
  exact claim_C3.2.2.1 "3601" [] [] oracle0 (by decide)

/-- Counterexample to claim C3 as stated: the configuration does not
accept exactly the integers 0 to 3600. The negative argument -5 is
accepted (the timeout becomes -5), and the non-numeric argument abc is
accepted with timeout 0, though the claim says both are rejected at
configuration time. -/
theorem claim_C3_counterexample :
    procOpt optState0 (OptEvent.t "-5") = Except.ok (OptState.mk false (-5) "") ∧
    atoi "-5" < 0 ∧
    procOpt optState0 (OptEvent.t "abc") = Except.ok (OptState.mk false 0 "") ∧
    atoi "abc" = 0 := by
  exact ⟨rfl, by decide, rfl, by decide⟩

/-- Claim C4 (amended): the per-packet line shows the sender address
in dotted-decimal form and the byte length, but the port is printed as
the raw sin_port field value, which on the little-endian target is the
byte-swapped sender port; the displayed number equals the host-order
port exactly when the two bytes of the port coincide. -/
theorem claim_C4 (p : Nat) (hp : p < 65536) :
    (∀ a len, codePacketLine a p len =
      "received from " ++ inet_ntoa a ++ ":" ++ toString (displayedPort p)
        ++ " (" ++ toString len ++ ")\n") ∧
    displayedPort p = htons16 p ∧
    (displayedPort p = p ↔ p % 256 = p / 256) := by
  refine ⟨fun a len => rfl, rfl, ?_⟩
  unfold displayedPort htons16
  omega

/-- Witness for claim C4 at port 80. -/
theorem claim_C4_witness :
    displayedPort 80 = htons16 80 ∧
    (displayedPort 80 = 80 ↔ 80 % 256 = 80 / 256) := by
  have h := claim_C4 80 (by decide)
  exact ⟨h.2.1, h.2.2⟩

/-- Counterexample to claim C4 as stated: for a datagram of 10 bytes
from 192.168.0.1 port 80, the code prints the port as 20480 (the raw
network-byte-order field value), not the host-byte-order 80 that the
claim describes, so the emitted line differs from the line the claim
specifies. -/
theorem claim_C4_counterexample :
    codePacketLine 3232235521 80 10 = "received from 192.168.0.1:20480 (10)\n" ∧
    specPacketLine 3232235521 80 10 = "received from 192.168.0.1:80 (10)\n" ∧
    codePacketLine 3232235521 80 10 ≠ specPacketLine 3232235521 80 10 := by
  exact ⟨rfl, rfl, by decide⟩

/-- Helper: unfolding of the candidate loop at a failing candidate. -/
theorem tryCands_cons_fail (r : AttemptResult) (rest : List AttemptResult)
    (c : Option String) (hr : r ≠ AttemptResult.success) :
    tryCands (r :: rest) c =
      ((tryCands rest (some (causeStr r))).1,
        (if attemptOpens r then 1 else 0) + (tryCands rest (some (causeStr r))).2.1,
        (if attemptCloses r then 1 else 0) + (tryCands rest (some (causeStr r))).2.2) := by
  cases r
  · exact absurd rfl hr
  · rfl
  · rfl
  · rfl

/-- Helper: a failing candidate opens a socket exactly when its
failure path closes one, so failing candidates leak nothing. -/
theorem fail_open_eq_close (r : AttemptResult) (hr : r ≠ AttemptResult.success) :
    (if attemptOpens r then (1 : Nat) else 0) = (if attemptCloses r then 1 else 0) := by
  cases r
  · exact absurd rfl hr
  · rfl
  · rfl
  · rfl

/-- Helper: when every candidate fails, the loop reaches the err exit
carrying the cause of the last candidate, and it has closed exactly as
many sockets as it opened. -/
theorem tryCands_allFail (init : List AttemptResult) (lastr : AttemptResult) :
    ∀ c, (∀ r ∈ init ++ [lastr], r ≠ AttemptResult.success) →
      (tryCands (init ++ [lastr]) c).1 =
        JoinOutcome.errExit (some (causeStr lastr)) ∧
      (tryCands (init ++ [lastr]) c).2.1 = (tryCands (init ++ [lastr]) c).2.2 := by
  induction init with
  | nil =>
      intro c hf
      have hr : lastr ≠ AttemptResult.success := hf lastr (by simp)
      rw [List.nil_append, tryCands_cons_fail lastr [] c hr]
      exact ⟨rfl, by simp [tryCands, fail_open_eq_close lastr hr]⟩
  | cons r rest ih =>
      intro c hf
      have hr : r ≠ AttemptResult.success := hf r (by simp)
      have hf2 : ∀ x ∈ rest ++ [lastr], x ≠ AttemptResult.success := by
        intro x hx
        exact hf x (by simp at hx ⊢; tauto)
      obtain ⟨h1, h2⟩ := ih (some (causeStr r)) hf2
      rw [List.cons_append, tryCands_cons_fail r (rest ++ [lastr]) c hr]
      exact ⟨h1, by simp [h2, fail_open_eq_close r hr]⟩

/-- Helper: when a candidate succeeds after a run of failing ones, the
loop stops at it with the socket of the successful candidate as the
single socket left open: the count of opened sockets exceeds the count
of closed ones by exactly one. -/
theorem tryCands_success (pre : List AttemptResult) (rest : List AttemptResult) :
    ∀ c, (∀ r ∈ pre, r ≠ AttemptResult.success) →
      (tryCands (pre ++ AttemptResult.success :: rest) c).1 = JoinOutcome.ok ∧
      (tryCands (pre ++ AttemptResult.success :: rest) c).2.1 =
        (tryCands (pre ++ AttemptResult.success :: rest) c).2.2 + 1 := by
  induction pre with
  | nil =>
      intro c _
      exact ⟨rfl, rfl⟩
  | cons r pre2 ih =>
      intro c hf
      have hr : r ≠ AttemptResult.success := hf r (by simp)
      have hf2 : ∀ x ∈ pre2, x ≠ AttemptResult.success := by
        intro x hx
        exact hf x (by simp [hx])
      obtain ⟨h1, h2⟩ := ih (some (causeStr r)) hf2
      rw [List.cons_append,
        tryCands_cons_fail r (pre2 ++ AttemptResult.success :: rest) c hr]
      refine ⟨h1, ?_⟩
      simp only [h2, fail_open_eq_close r hr]
      omega

/-- Claim C5 (amended): candidates are tried in order; when all fail,
the loop exits fatally carrying the cause string of the last failing
operation, which is one of socket, bind, or IP_ADD_MEMBERSHIP (not
join), having closed every socket it opened; when a candidate
succeeds, the loop stops there with exactly one socket, the successful
one, left open; and every failing candidate that opened a socket
closed it. -/
theorem claim_C5 :
    (∀ init lastr c, (∀ r ∈ init ++ [lastr], r ≠ AttemptResult.success) →
      (tryCands (init ++ [lastr]) c).1 =
        JoinOutcome.errExit (some (causeStr lastr)) ∧
      (tryCands (init ++ [lastr]) c).2.1 = (tryCands (init ++ [lastr]) c).2.2 ∧
      (causeStr lastr = "socket" ∨ causeStr lastr = "bind" ∨
        causeStr lastr = "IP_ADD_MEMBERSHIP")) ∧
    (∀ pre rest c, (∀ r ∈ pre, r ≠ AttemptResult.success) →
      (tryCands (pre ++ AttemptResult.success :: rest) c).1 = JoinOutcome.ok ∧
      (tryCands (pre ++ AttemptResult.success :: rest) c).2.1 =
        (tryCands (pre ++ AttemptResult.success :: rest) c).2.2 + 1) ∧
    (∀ r, r ≠ AttemptResult.success → attemptOpens r = true →
      attemptCloses r = true) := by
  refine ⟨?_, ?_, ?_⟩
  · intro init lastr c hf
    obtain ⟨h1, h2⟩ := tryCands_allFail init lastr c hf
    have hr : lastr ≠ AttemptResult.success := hf lastr (by simp)
    refine ⟨h1, h2, ?_⟩
    cases lastr
    · exact absurd rfl hr
    · exact Or.inl rfl
    · exact Or.inr (Or.inl rfl)
    · exact Or.inr (Or.inr rfl)
  · exact tryCands_success
  · intro r hr ho
    cases r
    · exact absurd rfl hr
    · exact absurd ho (by decide)
    · rfl
    · rfl

/-- Witness for claim C5: a bind failure followed by a join failure
reaches the fatal exit with cause IP_ADD_MEMBERSHIP and no socket left
open. -/
theorem claim_C5_witness :
    (tryCands [AttemptResult.bindFail, AttemptResult.joinFail] none).1 =
      JoinOutcome.errExit (some (causeStr AttemptResult.joinFail)) ∧
    (tryCands [AttemptResult.bindFail, AttemptResult.joinFail] none).2.1 =
      (tryCands [AttemptResult.bindFail, AttemptResult.joinFail] none).2.2 := by
  have h := claim_C5.1 [AttemptResult.bindFail] AttemptResult.joinFail none (by decide)
  exact ⟨by simpa using h.1, by simpa using h.2.1⟩

/-- Counterexample to claim C5 as stated: when the single candidate
fails at the group-join step, the message names the operation as
IP_ADD_MEMBERSHIP, which is none of socket, bind, or join; the claim
says the name is one of those three. -/
theorem claim_C5_counterexample :
    runSetup [] [] oracleJoinFail =
      Except.error (ExitKind.errx "IP_ADD_MEMBERSHIP") ∧
    "IP_ADD_MEMBERSHIP" ≠ "socket" ∧
    "IP_ADD_MEMBERSHIP" ≠ "bind" ∧
    "IP_ADD_MEMBERSHIP" ≠ "join" := by
  exact ⟨rfl, by decide, by decide, by decide⟩

/-- Claim C6: with a configured timeout T above 0 the session ends no
later than T (the armed one-shot timer fires at T if nothing fired
earlier), with exit status 0 and the summary printed, whatever
datagrams arrive; with T = 0 the timer is disarmed and the session
ends only at an external interrupt, again with exit status 0 and the
summary printed. -/
theorem claim_C6 :
    (∀ T intr arrivals, 0 < T →
      ∃ e st, sessionRun T intr arrivals = some (e, 0, summaryLine st) ∧ e ≤ T) ∧
    (∀ arrivals, sessionRun 0 none arrivals = none) ∧
    (∀ i arrivals, ∃ st,
      sessionRun 0 (some i) arrivals = some (i, 0, summaryLine st)) := by
  refine ⟨?_, ?_, ?_⟩
  · intro T intr arrivals hT
    have hT0 : T ≠ 0 := Nat.pos_iff_ne_zero.mp hT
    cases intr with
    | none =>
        refine ⟨T, runLoop ((arrivals.filter (fun ad => ad.1 < T)).map
          (fun ad => ad.2)), ?_, le_refl T⟩
        simp [sessionRun, sessionEndTime, timerFire, firstCancel, hT0]
    | some i =>
        refine ⟨min T i, runLoop ((arrivals.filter (fun ad => ad.1 < min T i)).map
          (fun ad => ad.2)), ?_, Nat.min_le_left T i⟩
        simp [sessionRun, sessionEndTime, timerFire, firstCancel, hT0]
  · intro arrivals
    rfl
  · intro i arrivals
    refine ⟨runLoop ((arrivals.filter (fun ad => ad.1 < i)).map (fun ad => ad.2)), ?_⟩
    simp [sessionRun, sessionEndTime, timerFire, firstCancel]

/-- Witness for claim C6: the scenario of the specification, timeout
2 seconds with three datagrams inside the window, ends by the timer
with exit status 0 and a summary. -/
theorem claim_C6_witness :
    ∃ e st, sessionRun 2 none [(0, 10), (1, 0), (1, 1400)] =
      some (e, 0, summaryLine st) ∧ e ≤ 2 := by
  exact claim_C6.1 2 none [(0, 10), (1, 0), (1, 1400)] (by decide)

/-- Claim C7 (amended): an unknown option or more than two positional
operands print the usage message and exit 1; an interface name of
IFNAMSIZ or more bytes, or a timeout above 3600, also exit 1 before
any resolution or socket work, but with their specific errx
diagnostics rather than the usage message; every such setup exit has
status 1, and an option or positional failure yields the same exit for
every environment, so no resolution or socket work is consulted. -/
theorem claim_C7 :
    (∀ st, procOpt st OptEvent.unknownOpt = Except.error ExitKind.usage) ∧
    (∀ p1 p2 p3 rest,
      procPositionals (p1 :: p2 :: p3 :: rest) = Except.error ExitKind.usage) ∧
    (∀ st s, IFNAMSIZ ≤ s.length →
      procOpt st (OptEvent.i s) =
        Except.error (ExitKind.errx (s ++ ": interface name too long"))) ∧
    (∀ st s, 3600 < atoi s →
      procOpt st (OptEvent.t s) =
        Except.error (ExitKind.errx (s ++ ": invalid timeout (>3600)"))) ∧
    (∀ k, exitCodeOf k = 1) ∧
    (∀ evs pos orc k, procOpts optState0 evs = Except.error k →
      runSetup evs pos orc = Except.error k) ∧
    (∀ evs st pos orc, procOpts optState0 evs = Except.ok st →
      procPositionals pos = Except.error ExitKind.usage →
      runSetup evs pos orc = Except.error ExitKind.usage) := by
  refine ⟨fun st => rfl, fun p1 p2 p3 rest => rfl, ?_, ?_, ?_, ?_, ?_⟩
  · intro st s h
    simp [procOpt, h]
  · intro st s h
    simp [procOpt, h]
  · intro k
    cases k
    · rfl
    · rfl
  · intro evs pos orc k h
    exact runSetup_opts_error evs pos orc k h
  · intro evs st pos orc h1 h2
    exact runSetup_pos_error evs pos orc st h1 h2

/-- Witness for claim C7: an unknown option ends the run with the
usage exit regardless of the environment. -/
theorem claim_C7_witness :
    runSetup [OptEvent.unknownOpt] [] oracle0 = Except.error ExitKind.usage := by
  exact claim_C7.2.2.2.2.2.1 [OptEvent.unknownOpt] [] oracle0 ExitKind.usage rfl

/-- Counterexample to claim C7 as stated: a 16-byte interface name is
a usage error per the claim, but the program prints the specific
interface-name-too-long diagnostic, not the usage message, and a
timeout of 3601 likewise gets its own diagnostic rather than the usage
message. -/
theorem claim_C7_counterexample :
    procOpt optState0 (OptEvent.i "0123456789abcdef") =
      Except.error (ExitKind.errx "0123456789abcdef: interface name too long") ∧
    ExitKind.errx "0123456789abcdef: interface name too long" ≠ ExitKind.usage ∧
    procOpt optState0 (OptEvent.t "3601") =
      Except.error (ExitKind.errx "3601: invalid timeout (>3600)") ∧
    ExitKind.errx "3601: invalid timeout (>3600)" ≠ ExitKind.usage := by
  exact ⟨rfl, by decide, rfl, by decide⟩

/-- Helper: soundness and completeness of the getifaddrs scan of
get_inaddr: it finds an address exactly when some entry both carries
an IPv4 address and bears exactly the requested name, and any address
it returns comes from such an entry. -/
theorem get_inaddr_spec (n : String) (l : List Ifaddr) :
    ((get_inaddr n l).isSome ↔
      ∃ e ∈ l, e.name = n ∧ ∃ a, e.addr = some (AF_INET, a)) ∧
    (∀ a, get_inaddr n l = some a →
      ∃ e ∈ l, e.name = n ∧ e.addr = some (AF_INET, a)) := by
  induction l with
  | nil => simp [get_inaddr]
  | cons ifa rest ih =>
      obtain ⟨ih1, ih2⟩ := ih
      cases haddr : ifa.addr with
      | none =>
          constructor
          · rw [show get_inaddr n (ifa :: rest) = get_inaddr n rest by
              simp [get_inaddr, haddr]]
            rw [ih1]
            constructor
            · intro ⟨e, he, hp⟩
              exact ⟨e, List.mem_cons_of_mem ifa he, hp⟩
            · intro ⟨e, he, hp⟩
              rcases List.mem_cons.mp he with he1 | he2
              · subst he1
                obtain ⟨-, a, ha⟩ := hp
                rw [haddr] at ha
                cases ha
              · exact ⟨e, he2, hp⟩
          · intro a ha
            rw [show get_inaddr n (ifa :: rest) = get_inaddr n rest by
              simp [get_inaddr, haddr]] at ha
            obtain ⟨e, he, hp⟩ := ih2 a ha
            exact ⟨e, List.mem_cons_of_mem ifa he, hp⟩
      | some fa =>
          by_cases hm : fa.1 = AF_INET ∧ n = ifa.name
          · have hg : get_inaddr n (ifa :: rest) = some fa.2 := by
              simp [get_inaddr, haddr, hm]
            constructor
            · rw [hg]
              simp only [Option.isSome_some, true_iff]
              refine ⟨ifa, List.mem_cons_self ifa rest, hm.2.symm, fa.2, ?_⟩
              rw [haddr]
              cases fa with
              | mk f v => cases hm.1; rfl
            · intro a ha
              rw [hg] at ha
              cases ha
              refine ⟨ifa, List.mem_cons_self ifa rest, hm.2.symm, ?_⟩
              rw [haddr]
              cases fa with
              | mk f v => cases hm.1; rfl
          · have hg : get_inaddr n (ifa :: rest) = get_inaddr n rest := by
              simp [get_inaddr, haddr, hm]
            constructor
            · rw [hg, ih1]
              constructor
              · intro ⟨e, he, hp⟩
                exact ⟨e, List.mem_cons_of_mem ifa he, hp⟩
              · intro ⟨e, he, hp⟩
                rcases List.mem_cons.mp he with he1 | he2
                · subst he1
                  obtain ⟨hn, a, ha⟩ := hp
                  rw [haddr] at ha
                  cases ha
                  exact absurd ⟨rfl, hn.symm⟩ hm
                · exact ⟨e, he2, hp⟩
            · intro a ha
              rw [hg] at ha
              obtain ⟨e, he, hp⟩ := ih2 a ha
              exact ⟨e, List.mem_cons_of_mem ifa he, hp⟩

/-- Claim C8: interface resolution succeeds exactly when some
getifaddrs entry carries an IPv4 address under exactly the requested
name (never a partial match: the witnessing entry bears the name
itself), the returned address belongs to such an entry, and the fatal
exit is taken exactly when no entry of that name carries an IPv4
address. -/
theorem claim_C8 (n : String) (l : List Ifaddr) :
    ((get_inaddr n l).isSome ↔
      ∃ e ∈ l, e.name = n ∧ ∃ a, e.addr = some (AF_INET, a)) ∧
    (∀ a, get_inaddr n l = some a →
      ∃ e ∈ l, e.name = n ∧ e.addr = some (AF_INET, a)) ∧
    (get_inaddr n l = none ↔
      ¬ ∃ e ∈ l, e.name = n ∧ ∃ a, e.addr = some (AF_INET, a)) := by
  obtain ⟨h1, h2⟩ := get_inaddr_spec n l
  refine ⟨h1, h2, ?_⟩
  rw [← h1, ← Option.not_isSome_iff_eq_none]

/-- Witness for claim C8: on a table whose entries are a packet-level
eth0 entry, a loopback entry, and an IPv4 eth0 entry, looking up eth0
returns the address of the IPv4 eth0 entry, and looking up the partial
name eth fails. -/
theorem claim_C8_witness :
    (∃ e ∈ [Ifaddr.mk "eth0" (some (17, 9)), Ifaddr.mk "lo" (some (2, 2130706433)),
        Ifaddr.mk "eth0" (some (2, 7))],
      e.name = "eth0" ∧ e.addr = some (AF_INET, 7)) ∧
    get_inaddr "eth" [Ifaddr.mk "eth0" (some (2, 7))] = none := by
  constructor
  · exact (claim_C8 "eth0" [Ifaddr.mk "eth0" (some (17, 9)),
      Ifaddr.mk "lo" (some (2, 2130706433)), Ifaddr.mk "eth0" (some (2, 7))]).2.1 7 rfl
  · rfl

/-- Claim C9: a datagram larger than the 2048-byte buffer is silently
truncated: recvfrom reports 2048, the counters and the log line treat
it exactly like a genuine 2048-byte datagram (no distinguishing
signal), and a datagram of at most 2048 bytes is reported at its full
length. -/
theorem claim_C9 (n : Nat) :
    (BUFFERSIZE < n →
      recvfromLen n = BUFFERSIZE ∧
      recvfromLen n = recvfromLen BUFFERSIZE ∧
      (∀ st, loopIter st (RecvOutcome.dgram (recvfromLen n)) =
        loopIter st (RecvOutcome.dgram BUFFERSIZE)) ∧
      (∀ a p, codePacketLine a p (recvfromLen n) =
        codePacketLine a p BUFFERSIZE)) ∧
    (n ≤ BUFFERSIZE → recvfromLen n = n) := by
  constructor
  · intro h
    have h1 : recvfromLen n = BUFFERSIZE := by
      unfold recvfromLen
      exact Nat.min_eq_right (Nat.le_of_lt h)
    refine ⟨h1, ?_, ?_, ?_⟩
    · rw [h1]
      unfold recvfromLen
      exact (Nat.min_self BUFFERSIZE).symm
    · intro st
      rw [h1]
    · intro a p
      rw [h1]
  · intro h
    unfold recvfromLen
    exact Nat.min_eq_left h

/-- Witness for claim C9: a 5000-byte datagram is reported as 2048
bytes and a 100-byte datagram as 100 bytes. -/
theorem claim_C9_witness :
    recvfromLen 5000 = BUFFERSIZE ∧ recvfromLen 100 = 100 := by
  exact ⟨((claim_C9 5000).1 (by decide)).1, (claim_C9 100).2 (by decide)⟩

/-- Claim C10: the group argument passes configuration exactly when
inet_aton parses it; the stored group is the parsed value with no
multicast-range test, so the plain unicast address 192.0.2.1 and the
shorthand forms 10.1 and 1 are accepted, the multicast default
224.0.0.1 parses to a class-D value, and an unparsable string is
rejected with the invalid-multicast-group diagnostic and exit 1. -/
theorem claim_C10 :
    (∀ s, (∃ a, checkMcast s = Except.ok a) ↔ (inet_aton s).isSome) ∧
    (∀ s a, checkMcast s = Except.ok a → inet_aton s = some a) ∧
    (∀ s, inet_aton s = none →
      checkMcast s = Except.error (ExitKind.errx (s ++ ": invalid multicast group"))) ∧
    checkMcast "192.0.2.1" = Except.ok 3221225985 ∧
    ¬ isMulticast 3221225985 ∧
    checkMcast "10.1" = Except.ok 167772161 ∧
    checkMcast "1" = Except.ok 1 ∧
    checkMcast "224.0.0.1" = Except.ok 3758096385 ∧
    isMulticast 3758096385 ∧
    checkMcast "hello" =
      Except.error (ExitKind.errx ("hello" ++ ": invalid multicast group")) := by
  refine ⟨?_, ?_, ?_, rfl, by decide, rfl, rfl, rfl, by decide, rfl⟩
  · intro s
    cases h : inet_aton s with
    | none => simp [checkMcast, h]
    | some a => simp [checkMcast, h]
  · intro s a h
    unfold checkMcast at h
    cases hh : inet_aton s with
    | none =>
        rw [hh] at h
        cases h
    | some b =>
        rw [hh] at h
        cases h
        rfl
  · intro s h
    simp [checkMcast, h]

/-- Witness for claim C10: an unparsable group string takes the fatal
invalid-multicast-group exit. -/
theorem claim_C10_witness :
    checkMcast "hello" =
      Except.error (ExitKind.errx ("hello" ++ ": invalid multicast group")) := by
  exact claim_C10.2.2.1 "hello" rfl
